import Mathlib

/-!
# Nuvex multi-layer storage engine: a shallow embedding

This file embeds the core of the Nuvex storage SDK (TypeScript) in Lean 4:
the L1 in-memory LRU layer (`MemoryStorage`), the L2 Redis cache layer
(`RedisStorage`), the L3 PostgreSQL layer (`PostgresStorage`), the SQL
identifier validation of the schema utilities, the orchestrating
`StorageEngine` (read cascade, L3-first write, increment cascade, health
check, key enumeration) and the client-level backup/restore envelope.

Modelling conventions:
* Time is an explicit `now : Nat` parameter (milliseconds), standing for
  `Date.now()`.
* Values are the inductive `Val`; JSON (de)serialization at the Redis and
  PostgreSQL boundaries is value-preserving in the source for the payloads
  considered here, so it is modelled as the identity.
* JavaScript truthiness of optional numeric TTLs (`if (ttlSeconds)`) is
  modelled explicitly: `some 0` is falsy, exactly like the source.
* I/O errors of the Redis and PostgreSQL backends are modelled by a
  `failOps` flag on the layer state: when set, queries/commands error,
  which each method then handles exactly as its TypeScript `catch` does.
* Logging, metrics counters and response-time telemetry are elided: no
  claim under consideration mentions them and they do not feed back into
  any of the modelled control flow.
-/

set_option maxHeartbeats 1000000

namespace Nuvex

/-- Stored values (serializable payloads). -/
inductive Val where
  | num (n : Int)
  | str (s : String)
  | bool (b : Bool)
  deriving DecidableEq, Repr

/-! ## Insertion-ordered maps (JavaScript `Map` semantics)

A JavaScript `Map` preserves insertion order; `set` on an existing key
updates the value in place (keeping the key's position), `set` on a fresh
key appends, and iteration yields entries in insertion order.  We model it
as an association list whose head is the oldest entry; keys are unique in
every map reachable through these operations. -/

/-- JS `map.has(k)`. -/
def mapHas {α : Type} (c : List (String × α)) (k : String) : Bool :=
  c.any (fun p => p.1 == k)

/-- JS `map.get(k)` (`none` stands for `undefined`). -/
def mapGet {α : Type} (c : List (String × α)) (k : String) : Option α :=
  (c.find? (fun p => p.1 == k)).map (fun p => p.2)

/-- JS `map.set(k, v)`: in-place update if present (position kept), else append. -/
def mapSet {α : Type} : List (String × α) → String → α → List (String × α)
  | [], k, v => [(k, v)]
  | p :: rest, k, v => if p.1 == k then (k, v) :: rest else p :: mapSet rest k v

/-- JS `map.delete(k)`. -/
def mapDelete {α : Type} (c : List (String × α)) (k : String) : List (String × α) :=
  c.filter (fun p => p.1 != k)

/-! ## L1: `MemoryStorage` (src/layers/memory.ts)

In-memory LRU cache.  The TypeScript class keeps a JS `Map` from key to
`MemoryCacheEntry { value, expires? }` (expiry is an absolute millisecond
timestamp; absent means no expiration) plus a fixed `maxSize`. -/

/-- Entry stored in the memory cache (`MemoryCacheEntry`). -/
structure MemoryCacheEntry where
  value : Val
  /-- Absolute expiry in ms; `none` = the `expires` field is absent. -/
  expires : Option Nat := none
  deriving DecidableEq, Repr

/-- The expiry test `entry.expires && Date.now() > entry.expires` of the
source, including the JS truthiness of `entry.expires` (an expiry equal to
`0` is falsy and therefore never triggers). -/
def MemoryCacheEntry.isExpired (entry : MemoryCacheEntry) (now : Nat) : Bool :=
  match entry.expires with
  | some e => e != 0 && now > e
  | none => false

/-- `MemoryStorage`: bounded LRU map. -/
structure MemoryStorage where
  cache : List (String × MemoryCacheEntry)
  maxSize : Nat
  deriving DecidableEq, Repr

/-- A fresh `new MemoryStorage(maxSize)`. -/
def MemoryStorage.empty (maxSize : Nat := 10000) : MemoryStorage :=
  { cache := [], maxSize := maxSize }

/-- `MemoryStorage.get`: lazy-expire, then LRU-touch (delete + re-insert
moves the entry to the newest position) and return the value. -/
def MemoryStorage.get (st : MemoryStorage) (now : Nat) (key : String) :
    Option Val × MemoryStorage :=
  match mapGet st.cache key with
  | none => (none, st)
  | some entry =>
    if entry.isExpired now then
      (none, { st with cache := mapDelete st.cache key })
    else
      (some entry.value, { st with cache := mapSet (mapDelete st.cache key) key entry })

/-- The entry built by `MemoryStorage.set`: `expires` is only assigned when
`ttlSeconds` is truthy (so `set(k, v, 0)` stores no expiration). -/
def memEntryOf (now : Nat) (value : Val) (ttlSeconds : Option Nat) : MemoryCacheEntry :=
  match ttlSeconds with
  | some t => if t = 0 then { value := value } else { value := value, expires := some (now + t * 1000) }
  | none => { value := value }

/-- `MemoryStorage.set`: evict the oldest (first) entry when the cache is
full and the key is fresh, then insert.  The eviction guard `if (firstKey)`
is a JS truthiness test, so an empty-string first key is never evicted. -/
def MemoryStorage.set (st : MemoryStorage) (now : Nat) (key : String) (value : Val)
    (ttlSeconds : Option Nat) : MemoryStorage :=
  let c :=
    if st.cache.length ≥ st.maxSize ∧ mapHas st.cache key = false then
      match st.cache.head? with
      | some (firstKey, _) => if firstKey = "" then st.cache else mapDelete st.cache firstKey
      | none => st.cache
    else st.cache
  { st with cache := mapSet c key (memEntryOf now value ttlSeconds) }

/-- `MemoryStorage.delete`. -/
def MemoryStorage.del (st : MemoryStorage) (key : String) : MemoryStorage :=
  { st with cache := mapDelete st.cache key }

/-- `MemoryStorage.exists`: lazy-expire without the LRU touch. -/
def MemoryStorage.hasKey (st : MemoryStorage) (now : Nat) (key : String) :
    Bool × MemoryStorage :=
  match mapGet st.cache key with
  | none => (false, st)
  | some entry =>
    if entry.isExpired now then (false, { st with cache := mapDelete st.cache key })
    else (true, st)

/-- `MemoryStorage.clear`. -/
def MemoryStorage.clear (st : MemoryStorage) : MemoryStorage :=
  { st with cache := [] }

/-- The internal probe key used by `MemoryStorage.ping`. -/
def memHealthCheckKey : String := "__nuvex_health_check__"

/-- `MemoryStorage.ping`: writes and deletes a probe entry, returns `true`
(the `try` body cannot fail). -/
def MemoryStorage.ping (st : MemoryStorage) : Bool × MemoryStorage :=
  let probed := mapSet st.cache memHealthCheckKey { value := Val.bool true }
  (true, { st with cache := mapDelete probed memHealthCheckKey })

/-- `MemoryStorage.cleanup`: delete every expired entry, return the count. -/
def MemoryStorage.cleanup (st : MemoryStorage) (now : Nat) : Nat × MemoryStorage :=
  ((st.cache.filter (fun p => p.2.isExpired now)).length,
   { st with cache := st.cache.filter (fun p => !p.2.isExpired now) })

/-- `MemoryStorage.size`. -/
def MemoryStorage.size (st : MemoryStorage) : Nat :=
  st.cache.length

/-! ### Operation traces over the memory layer -/

/-- A public operation on `MemoryStorage`, with the time at which it runs. -/
inductive MemOp where
  | get (now : Nat) (key : String)
  | set (now : Nat) (key : String) (value : Val) (ttl : Option Nat)
  | del (key : String)
  | hasKey (now : Nat) (key : String)
  | clear
  | ping
  | cleanup (now : Nat)
  deriving Repr

/-- State transition of one operation (return values discarded). -/
def MemOp.step (st : MemoryStorage) : MemOp → MemoryStorage
  | .get now key => (st.get now key).2
  | .set now key value ttl => st.set now key value ttl
  | .del key => st.del key
  | .hasKey now key => (st.hasKey now key).2
  | .clear => st.clear
  | .ping => (st.ping).2
  | .cleanup now => (st.cleanup now).2

/-- Run a trace of operations left to right. -/
def runMemOps (st : MemoryStorage) (ops : List MemOp) : MemoryStorage :=
  ops.foldl MemOp.step st

/-- The key an operation touches, if any. -/
def MemOp.key? : MemOp → Option String
  | .get _ key => some key
  | .set _ key _ _ => some key
  | .del key => some key
  | .hasKey _ key => some key
  | .clear => none
  | .ping => none
  | .cleanup _ => none

/-- Keys are non-empty byte strings in the data model; an operation is
well-keyed when it does not use the (JS-falsy) empty string as a key. -/
def MemOp.goodKey (op : MemOp) : Prop :=
  ∀ k, op.key? = some k → k ≠ ""

/-! ## L2: `RedisStorage` (src/layers/memory.ts, Redis section)

The Redis client is external; its key space is modelled as an
insertion-ordered map from key to value plus optional absolute expiry
(`SETEX`/`EXPIRE` install one, plain `SET` clears it, an expired key reads
as absent).  Transport errors are modelled by `failOps`; each method
handles them exactly as its TypeScript `catch` block does.  JSON
(de)serialization is value-preserving and modelled as the identity. -/

/-- A Redis key's state: value and optional absolute expiry (ms). -/
structure RedisEntry where
  value : Val
  expiresAt : Option Nat := none
  deriving DecidableEq, Repr

/-- A Redis key is live while `now` is before its expiry. -/
def RedisEntry.live (e : RedisEntry) (now : Nat) : Bool :=
  match e.expiresAt with
  | some t => now < t
  | none => true

/-- `RedisStorage`: connection flag, key space, transport-error flag. -/
structure RedisStorage where
  connected : Bool
  store : List (String × RedisEntry)
  failOps : Bool := false
  deriving DecidableEq, Repr

/-- `RedisStorage.get`: absent/error conditions return `null`. -/
def RedisStorage.get (st : RedisStorage) (now : Nat) (key : String) : Option Val :=
  if st.connected = false then none
  else if st.failOps then none
  else
    match mapGet st.store key with
    | some e => if e.live now then some e.value else none
    | none => none

/-- `RedisStorage.set`: not connected or transport error is swallowed
(logged and ignored); a truthy `ttlSeconds` uses `SETEX`, otherwise a
plain `SET` (which clears any previous expiry). -/
def RedisStorage.set (st : RedisStorage) (now : Nat) (key : String) (value : Val)
    (ttlSeconds : Option Nat) : RedisStorage :=
  if st.connected = false then st
  else if st.failOps then st
  else
    match ttlSeconds with
    | some t =>
      if t = 0 then { st with store := mapSet st.store key { value := value } }
      else { st with store := mapSet st.store key { value := value, expiresAt := some (now + t * 1000) } }
    | none => { st with store := mapSet st.store key { value := value } }

/-- `RedisStorage.delete`: failures swallowed. -/
def RedisStorage.del (st : RedisStorage) (key : String) : RedisStorage :=
  if st.connected = false then st
  else if st.failOps then st
  else { st with store := mapDelete st.store key }

/-- `RedisStorage.exists`. -/
def RedisStorage.hasKey (st : RedisStorage) (now : Nat) (key : String) : Bool :=
  if st.connected = false then false
  else if st.failOps then false
  else
    match mapGet st.store key with
    | some e => e.live now
    | none => false

/-- `RedisStorage.clear` (`FLUSHDB`): failures swallowed. -/
def RedisStorage.clear (st : RedisStorage) : RedisStorage :=
  if st.connected = false then st
  else if st.failOps then st
  else { st with store := [] }

/-- `RedisStorage.ping`: `PING` answers `PONG` iff connected and healthy. -/
def RedisStorage.ping (st : RedisStorage) : Bool :=
  st.connected && !st.failOps

/-- `RedisStorage.increment`: `INCRBY` (absent or expired key counts as 0,
non-integer values error, existing TTL is preserved), then `EXPIRE` when
`ttlSeconds` is truthy.  Not-connected and transport errors are thrown. -/
def RedisStorage.increment (st : RedisStorage) (now : Nat) (key : String) (delta : Int)
    (ttlSeconds : Option Nat) : Except String (Int × RedisStorage) :=
  if st.connected = false then .error ("Redis not connected")
  else if st.failOps then .error ("Redis command failed")
  else
    let applyTtl : RedisStorage → Int → Except String (Int × RedisStorage) := fun st1 v =>
      match ttlSeconds with
      | some t =>
        if t = 0 then .ok (v, st1)
        else
          match mapGet st1.store key with
          | some e => .ok (v, { st1 with store := mapSet st1.store key { e with expiresAt := some (now + t * 1000) } })
          | none => .ok (v, st1)
      | none => .ok (v, st1)
    match mapGet st.store key with
    | some e =>
      if e.live now then
        match e.value with
        | Val.num n =>
          applyTtl { st with store := mapSet st.store key { value := Val.num (n + delta), expiresAt := e.expiresAt } } (n + delta)
        | _ => .error ("Redis value is not an integer")
      else
        applyTtl { st with store := mapSet st.store key { value := Val.num delta } } delta
    | none =>
      applyTtl { st with store := mapSet st.store key { value := Val.num delta } } delta

/-! ## L3: `PostgresStorage` (src/layers/memory.ts, PostgreSQL section)

The `nuvex_storage` table is modelled as a map from key to
`(value, expires_at)`.  Query-level errors (the scenario "L3 rejects
writes") are modelled by `failOps`; each method handles them exactly as
its TypeScript `catch` block does: reads degrade to `null`/`false`,
writes and increments rethrow. -/

/-- A row: value column plus optional `expires_at` (ms). -/
structure PgRow where
  value : Val
  expiresAt : Option Nat := none
  deriving DecidableEq, Repr

/-- The SQL predicate `expires_at IS NULL OR expires_at > NOW()`. -/
def PgRow.live (r : PgRow) (now : Nat) : Bool :=
  match r.expiresAt with
  | some t => now < t
  | none => true

/-- `PostgresStorage`: connection flag, table contents, query-error flag. -/
structure PostgresStorage where
  connected : Bool
  store : List (String × PgRow)
  failOps : Bool := false
  deriving DecidableEq, Repr

/-- `PostgresStorage.get`: not-connected and query errors return `null`;
otherwise `SELECT` with the non-expired predicate. -/
def PostgresStorage.get (st : PostgresStorage) (now : Nat) (key : String) : Option Val :=
  if st.connected = false then none
  else if st.failOps then none
  else
    match mapGet st.store key with
    | some r => if r.live now then some r.value else none
    | none => none

/-- The `expires_at` written by `set`/`increment`:
`ttlSeconds ? new Date(Date.now() + ttlSeconds * 1000) : null`. -/
def pgExpiresAt (now : Nat) (ttlSeconds : Option Nat) : Option Nat :=
  match ttlSeconds with
  | some t => if t = 0 then none else some (now + t * 1000)
  | none => none

/-- `PostgresStorage.set`: throws when not connected or on query error;
otherwise the atomic `INSERT ... ON CONFLICT DO UPDATE` upsert. -/
def PostgresStorage.set (st : PostgresStorage) (now : Nat) (key : String) (value : Val)
    (ttlSeconds : Option Nat) : Except String PostgresStorage :=
  if st.connected = false then .error ("PostgreSQL not connected")
  else if st.failOps then .error ("PostgreSQL query failed")
  else .ok { st with store := mapSet st.store key { value := value, expiresAt := pgExpiresAt now ttlSeconds } }

/-- `PostgresStorage.delete`: errors swallowed. -/
def PostgresStorage.del (st : PostgresStorage) (key : String) : PostgresStorage :=
  if st.connected = false then st
  else if st.failOps then st
  else { st with store := mapDelete st.store key }

/-- `PostgresStorage.exists`. -/
def PostgresStorage.hasKey (st : PostgresStorage) (now : Nat) (key : String) : Bool :=
  if st.connected = false then false
  else if st.failOps then false
  else
    match mapGet st.store key with
    | some r => r.live now
    | none => false

/-- `PostgresStorage.clear` (`DELETE FROM <table>`): errors swallowed. -/
def PostgresStorage.clear (st : PostgresStorage) : PostgresStorage :=
  if st.connected = false then st
  else if st.failOps then st
  else { st with store := [] }

/-- `PostgresStorage.ping`: `SELECT 1` on a leased client. -/
def PostgresStorage.ping (st : PostgresStorage) : Bool :=
  st.connected && !st.failOps

/-- `PostgresStorage.increment`: the single-statement atomic upsert.  On
conflict, a live row has its numeric value increased by `delta`, an
expired row is overwritten with `delta`; `expires_at` is refreshed from
`ttlSeconds` in both cases; the post-update numeric value is returned.  A
non-numeric value makes the `::numeric` cast fail (query error). -/
def PostgresStorage.increment (st : PostgresStorage) (now : Nat) (key : String) (delta : Int)
    (ttlSeconds : Option Nat) : Except String (Int × PostgresStorage) :=
  if st.connected = false then .error ("PostgreSQL not connected")
  else if st.failOps then .error ("PostgreSQL query failed")
  else
    let expiresAt := pgExpiresAt now ttlSeconds
    match mapGet st.store key with
    | none =>
      .ok (delta, { st with store := mapSet st.store key { value := Val.num delta, expiresAt := expiresAt } })
    | some r =>
      if r.live now then
        match r.value with
        | Val.num n =>
          .ok (n + delta, { st with store := mapSet st.store key { value := Val.num (n + delta), expiresAt := expiresAt } })
        | _ => .error ("PostgreSQL numeric cast failed")
      else
        .ok (delta, { st with store := mapSet st.store key { value := Val.num delta, expiresAt := expiresAt } })

/-! ## SQL identifier validation and schema generation (src/core/database.ts) -/

/-- A character matched by `[a-zA-Z0-9_]`. -/
def isSQLIdentChar (c : Char) : Bool :=
  c.isAlpha || c.isDigit || c == '_'

/-- The test `identifier && /^[a-zA-Z_][a-zA-Z0-9_]*$/.test(identifier)`:
non-empty, first character a letter or underscore, rest alphanumeric or
underscore. -/
def isValidSQLIdentifier (s : String) : Bool :=
  match s.data with
  | [] => false
  | c :: cs => (c.isAlpha || c == '_') && cs.all isSQLIdentChar

/-- `validateSQLIdentifier`: throws on an invalid identifier. -/
def validateSQLIdentifier (identifier : String) (name : String) : Except String Unit :=
  if isValidSQLIdentifier identifier then .ok ()
  else .error ("Invalid " ++ name ++ ": \"" ++ identifier ++ "\". SQL identifiers must start with a letter or underscore and contain only alphanumeric characters and underscores.")

/-- `schema.columns` of `PostgresSchemaConfig`. -/
structure SchemaColumnsConfig where
  key : Option String := none
  value : Option String := none
  deriving DecidableEq, Repr

/-- `PostgresSchemaConfig`: optional custom table and column names. -/
structure PostgresSchemaConfig where
  tableName : Option String := none
  columns : Option SchemaColumnsConfig := none
  deriving DecidableEq, Repr

/-- `schema?.tableName ?? 'nuvex_storage'`. -/
def resolvedTableName (schema : Option PostgresSchemaConfig) : String :=
  ((schema.bind (fun s => s.tableName)).getD ("nuvex_storage"))

/-- `schema?.columns?.key ?? 'nuvex_key'`. -/
def resolvedKeyColumn (schema : Option PostgresSchemaConfig) : String :=
  (((schema.bind (fun s => s.columns)).bind (fun c => c.key)).getD ("nuvex_key"))

/-- `schema?.columns?.value ?? 'nuvex_data'`. -/
def resolvedValueColumn (schema : Option PostgresSchemaConfig) : String :=
  (((schema.bind (fun s => s.columns)).bind (fun c => c.value)).getD ("nuvex_data"))

/-- The DDL produced by `generateNuvexSchemaSQL`, abstracted to the three
identifiers substituted into its fixed template (table, key column, value
column); these are the only identifiers interpolated into the generated
DDL/DML. -/
structure SchemaSQL where
  tableName : String
  keyColumn : String
  valueColumn : String
  deriving DecidableEq, Repr

/-- `generateNuvexSchemaSQL`: resolve the identifiers, validate all three
(throwing before any SQL text is assembled), then build the DDL. -/
def generateNuvexSchemaSQL (schema : Option PostgresSchemaConfig) : Except String SchemaSQL :=
  match validateSQLIdentifier (resolvedTableName schema) ("table name") with
  | .error e => .error e
  | .ok _ =>
    match validateSQLIdentifier (resolvedKeyColumn schema) ("key column name") with
    | .error e => .error e
    | .ok _ =>
      match validateSQLIdentifier (resolvedValueColumn schema) ("value column name") with
      | .error e => .error e
      | .ok _ =>
        .ok { tableName := resolvedTableName schema,
              keyColumn := resolvedKeyColumn schema,
              valueColumn := resolvedValueColumn schema }

/-- The identifier extraction and validation performed by the
`PostgresStorage` constructor (an existing-pool argument carries no schema
configuration, i.e. `schema = none`). -/
def postgresCtorIdentifiers (schema : Option PostgresSchemaConfig) : Except String SchemaSQL :=
  match validateSQLIdentifier (resolvedTableName schema) ("table name") with
  | .error e => .error e
  | .ok _ =>
    match validateSQLIdentifier (resolvedKeyColumn schema) ("key column name") with
    | .error e => .error e
    | .ok _ =>
      match validateSQLIdentifier (resolvedValueColumn schema) ("value column name") with
      | .error e => .error e
      | .ok _ =>
        .ok { tableName := resolvedTableName schema,
              keyColumn := resolvedKeyColumn schema,
              valueColumn := resolvedValueColumn schema }

/-! ## `StorageEngine` (src/core/engine.ts) -/

/-- The `StorageLayer` enum (`'memory' | 'redis' | 'postgres'`). -/
inductive StorageLayer where
  | memory
  | redis
  | postgres
  deriving DecidableEq, Repr

/-- `StorageOptions` (`ttl?`, `layer?`, `skipCache?`). -/
structure StorageOptions where
  ttl : Option Nat := none
  layer : Option StorageLayer := none
  skipCache : Bool := false
  deriving DecidableEq, Repr

/-- Engine state: the three layers (`l2Redis`/`l3Postgres` are `none` when
not configured or dropped at connect), the connected flag, and the
configured default cache TTL `config.redis?.ttl` (seconds). -/
structure StorageEngine where
  l1Memory : MemoryStorage
  l2Redis : Option RedisStorage
  l3Postgres : Option PostgresStorage
  connected : Bool
  redisTtlConfig : Option Nat := none
  deriving DecidableEq, Repr

/-- `const defaultTTL = this.config.redis?.ttl || 3 * 24 * 60 * 60`. -/
def StorageEngine.defaultTTL (st : StorageEngine) : Nat :=
  match st.redisTtlConfig with
  | some t => if t = 0 then 259200 else t
  | none => 259200

/-- `StorageEngine.get`: skip-cache branch, layer-targeted branch, then
the L1 → L2 → L3 cascade with cache warming at the default TTL. -/
def StorageEngine.get (st : StorageEngine) (now : Nat) (key : String)
    (opts : StorageOptions) : Option Val × StorageEngine :=
  if opts.skipCache = true ∧ st.l3Postgres.isSome = true then
    (match st.l3Postgres with
     | some p => p.get now key
     | none => none, st)
  else
    match opts.layer with
    | some .memory =>
      let (v, m) := st.l1Memory.get now key
      (v, { st with l1Memory := m })
    | some .redis =>
      (match st.l2Redis with | some r => r.get now key | none => none, st)
    | some .postgres =>
      (match st.l3Postgres with | some p => p.get now key | none => none, st)
    | none =>
      let warmTTL := st.defaultTTL
      let (v1, m1) := st.l1Memory.get now key
      let st1 := { st with l1Memory := m1 }
      match v1 with
      | some v => (some v, st1)
      | none =>
        let fromRedis : Option Val :=
          match st1.l2Redis with
          | some r => r.get now key
          | none => none
        match fromRedis with
        | some v =>
          (some v, { st1 with l1Memory := st1.l1Memory.set now key v (some warmTTL) })
        | none =>
          match st1.l3Postgres with
          | some p =>
            match p.get now key with
            | some v =>
              let st2 := { st1 with l1Memory := st1.l1Memory.set now key v (some warmTTL) }
              let st3 :=
                match st2.l2Redis with
                | some r => { st2 with l2Redis := some (r.set now key v (some warmTTL)) }
                | none => st2
              (some v, st3)
            | none => (none, st1)
          | none => (none, st1)

/-- `StorageEngine.set`: `false` when not connected; a layer-targeted
write touches only that layer (a missing target layer still reports
`true`, and only a thrown L3 write makes the targeted-postgres case report
`false`); the default path writes L3 first (a thrown L3 write aborts the
call with `false` before any cache write) and then fans out to L1/L2 with
best-effort semantics. -/
def StorageEngine.set (st : StorageEngine) (now : Nat) (key : String) (value : Val)
    (opts : StorageOptions) : Bool × StorageEngine :=
  if st.connected = false then (false, st)
  else
    match opts.layer with
    | some .memory => (true, { st with l1Memory := st.l1Memory.set now key value opts.ttl })
    | some .redis =>
      match st.l2Redis with
      | some r => (true, { st with l2Redis := some (r.set now key value opts.ttl) })
      | none => (true, st)
    | some .postgres =>
      match st.l3Postgres with
      | some p =>
        match p.set now key value opts.ttl with
        | .ok p' => (true, { st with l3Postgres := some p' })
        | .error _ => (false, st)
      | none => (true, st)
    | none =>
      let fanout : StorageEngine → Bool × StorageEngine := fun s =>
        let s1 := { s with l1Memory := s.l1Memory.set now key value opts.ttl }
        let s2 :=
          match s1.l2Redis with
          | some r => { s1 with l2Redis := some (r.set now key value opts.ttl) }
          | none => s1
        (true, s2)
      match st.l3Postgres with
      | some p =>
        match p.set now key value opts.ttl with
        | .error _ => (false, st)
        | .ok p' => fanout { st with l3Postgres := some p' }
      | none => fanout st

/-- `StorageEngine.delete`: layer-targeted or resilient all-layer delete. -/
def StorageEngine.del (st : StorageEngine) (key : String) (opts : StorageOptions) :
    Bool × StorageEngine :=
  match opts.layer with
  | some .memory => (true, { st with l1Memory := st.l1Memory.del key })
  | some .redis =>
    match st.l2Redis with
    | some r => (true, { st with l2Redis := some (r.del key) })
    | none => (true, st)
  | some .postgres =>
    match st.l3Postgres with
    | some p => (true, { st with l3Postgres := some (p.del key) })
    | none => (true, st)
  | none =>
    let st1 := { st with l1Memory := st.l1Memory.del key }
    let st2 :=
      match st1.l2Redis with
      | some r => { st1 with l2Redis := some (r.del key) }
      | none => st1
    let st3 :=
      match st2.l3Postgres with
      | some p => { st2 with l3Postgres := some (p.del key) }
      | none => st2
    (true, st3)

/-- `StorageEngine.exists`: layer-targeted, or short-circuit OR over
L1, L2, L3 in that order. -/
def StorageEngine.hasKey (st : StorageEngine) (now : Nat) (key : String)
    (opts : StorageOptions) : Bool × StorageEngine :=
  match opts.layer with
  | some .memory =>
    let (b, m) := st.l1Memory.hasKey now key
    (b, { st with l1Memory := m })
  | some .redis =>
    (match st.l2Redis with | some r => r.hasKey now key | none => false, st)
  | some .postgres =>
    (match st.l3Postgres with | some p => p.hasKey now key | none => false, st)
  | none =>
    let (b1, m1) := st.l1Memory.hasKey now key
    let st1 := { st with l1Memory := m1 }
    if b1 then (true, st1)
    else if (match st1.l2Redis with | some r => r.hasKey now key | none => false) then (true, st1)
    else if (match st1.l3Postgres with | some p => p.hasKey now key | none => false) then (true, st1)
    else (false, st1)

/-- `const ttlSeconds = ttl ? Math.floor(ttl / 1000) : undefined` in
`StorageEngine.increment` (`ttl` is in milliseconds). -/
def ttlSecondsOfMs (ttl : Option Nat) : Option Nat :=
  match ttl with
  | some t => if t = 0 then none else some (t / 1000)
  | none => none

/-- `StorageEngine.increment`: atomic increment on the most authoritative
layer that has an `increment` method, then plain-`set` propagation of the
resulting value (with the same `ttlSeconds`) to the layers above it.
`this.l3Postgres?.increment` and `this.l2Redis?.increment` are defined
whenever the layer is configured, but `this.l1Memory?.increment` is always
`undefined` — the `MemoryStorage` class defines no `increment` method — so
with neither L3 nor L2 the engine reaches the final `else` and throws. -/
def StorageEngine.increment (st : StorageEngine) (now : Nat) (key : String) (delta : Int)
    (ttl : Option Nat) : Except String (Int × StorageEngine) :=
  let ttlSeconds := ttlSecondsOfMs ttl
  match st.l3Postgres with
  | some p =>
    match p.increment now key delta ttlSeconds with
    | .error e => .error e
    | .ok (v, p') =>
      let st1 := { st with l3Postgres := some p' }
      let st2 :=
        match st1.l2Redis with
        | some r => { st1 with l2Redis := some (r.set now key (Val.num v) ttlSeconds) }
        | none => st1
      let st3 := { st2 with l1Memory := st2.l1Memory.set now key (Val.num v) ttlSeconds }
      .ok (v, st3)
  | none =>
    match st.l2Redis with
    | some r =>
      match r.increment now key delta ttlSeconds with
      | .error e => .error e
      | .ok (v, r') =>
        let st1 := { st with l2Redis := some r' }
        let st2 := { st1 with l1Memory := st1.l1Memory.set now key (Val.num v) ttlSeconds }
        .ok (v, st2)
    | none =>
      .error ("No storage layer available for increment operation")

/-- `StorageEngine.keys`: deprecated stub of the modular architecture —
always returns the empty array. -/
def StorageEngine.keys (_st : StorageEngine) (_pattern : String) : List String :=
  []

/-- `StorageEngine.clear('*')`: clear L1 (returning its former size) and
best-effort clear of L2 and L3. -/
def StorageEngine.clearAll (st : StorageEngine) : Nat × StorageEngine :=
  let cleared := st.l1Memory.size
  let st1 := { st with l1Memory := st.l1Memory.clear }
  let st2 :=
    match st1.l2Redis with
    | some r => { st1 with l2Redis := some r.clear }
    | none => st1
  let st3 :=
    match st2.l3Postgres with
    | some p => { st2 with l3Postgres := some p.clear }
    | none => st2
  (cleared, st3)

/-- `StorageEngine.getLayerInfo`: first layer (L1 → L2 → L3) holding the
key; the returned info never carries a `ttl`. -/
def StorageEngine.getLayerInfo (st : StorageEngine) (now : Nat) (key : String) :
    Option StorageLayer × StorageEngine :=
  let (b1, m1) := st.l1Memory.hasKey now key
  let st1 := { st with l1Memory := m1 }
  if b1 then (some .memory, st1)
  else if (match st1.l2Redis with | some r => r.hasKey now key | none => false) then
    (some .redis, st1)
  else if (match st1.l3Postgres with | some p => p.hasKey now key | none => false) then
    (some .postgres, st1)
  else (none, st1)

/-- One layer's health probe inside `healthCheck`: a requested layer that
is not configured resolves to `false` without pinging. -/
def StorageEngine.pingLayer (st : StorageEngine) (l : StorageLayer) : Bool × StorageEngine :=
  match l with
  | .memory =>
    let (b, m) := st.l1Memory.ping
    (b, { st with l1Memory := m })
  | .redis => (match st.l2Redis with | some r => r.ping | none => false, st)
  | .postgres => (match st.l3Postgres with | some p => p.ping | none => false, st)

/-- The probe loop of `healthCheck`: one `(layer, ping result)` pair per
requested layer, in request order. -/
def StorageEngine.healthChecks (st : StorageEngine) :
    List StorageLayer → List (StorageLayer × Bool) × StorageEngine
  | [] => ([], st)
  | l :: ls =>
    let (b, st1) := st.pingLayer l
    let (rest, st2) := st1.healthChecks ls
    ((l, b) :: rest, st2)

/-- The `layers?` argument of `healthCheck`: a single layer name or an
array of layer names. -/
inductive HealthSelector where
  | one (l : StorageLayer)
  | many (ls : List StorageLayer)
  deriving DecidableEq, Repr

/-- `StorageEngine.healthCheck`: normalize the selector (absent = all
three layers), ping each requested layer, and build the result map in
request order. -/
def StorageEngine.healthCheck (st : StorageEngine) (layers : Option HealthSelector) :
    List (StorageLayer × Bool) × StorageEngine :=
  let layersToCheck : List StorageLayer :=
    match layers with
    | none => [.memory, .redis, .postgres]
    | some (.one l) => [l]
    | some (.many ls) => ls
  st.healthChecks layersToCheck

/-! ## Client backup/restore envelope (src/core/client.ts)

File-system plumbing (directory creation, gzip) is elided; the envelope's
`data` payload and the restore write-back loop are modelled.  The internal
metadata objects written under `__nuvex_last_backup_metadata` and
`__nuvex_last_restore_metadata` are abstracted to marker strings: their
contents feed no modelled control flow. -/

/-- One entry of the backup envelope's `data` map. -/
structure BackupItem where
  value : Val
  layerInfo : Option StorageLayer
  deriving DecidableEq, Repr

/-- The backup envelope (metadata counters plus the `data` map). -/
structure BackupPackage where
  keyCount : Nat
  keysSkipped : Nat
  totalKeys : Nat
  data : List (String × BackupItem)
  deriving DecidableEq, Repr

/-- Keys skipped by backup: `__nuvex_*` and `__backup:*`. -/
def isInternalKey (key : String) : Bool :=
  key.startsWith ("__nuvex_") || key.startsWith ("__backup:")

/-- `NuvexClient.backup`: enumerate keys via `StorageEngine.keys`, skip
internal keys, snapshot each remaining key's value and layer info, then
record the last-backup metadata. -/
def NuvexClient.backup (st : StorageEngine) (now : Nat) : BackupPackage × StorageEngine :=
  let allKeys := st.keys ("*")
  let folded := allKeys.foldl
    (fun (acc : List (String × BackupItem) × Nat × Nat × StorageEngine) key =>
      let (dat, proc, skip, s) := acc
      if isInternalKey key then (dat, proc, skip + 1, s)
      else
        let (v, s1) := s.get now key {}
        let (li, s2) := s1.getLayerInfo now key
        match v with
        | some v => (dat ++ [(key, { value := v, layerInfo := li })], proc + 1, skip, s2)
        | none => (dat, proc, skip, s2))
    ([], 0, 0, st)
  let (dat, proc, skip, st1) := folded
  let (_, st2) := st1.set now ("__nuvex_last_backup_metadata") (Val.str ("backup-metadata")) {}
  ({ keyCount := proc, keysSkipped := skip, totalKeys := allKeys.length, data := dat }, st2)

/-- The restore options rebuilt from a backup item: the original layer
when recorded.  (The source would also restore `layerInfo.ttl` when
present and positive, but `getLayerInfo` never records a TTL, so no
envelope produced by this backup carries one.) -/
def restoreOptionsOf (item : BackupItem) : StorageOptions :=
  match item.layerInfo with
  | some l => { layer := some l }
  | none => {}

/-- `NuvexClient.restore` (envelope already loaded): dry-run reports
without writing; otherwise optionally clear, write every entry back via
`set`, then record the last-restore metadata.  Returns `true` iff no entry
failed. -/
def NuvexClient.restore (pkg : BackupPackage) (clearExisting dryRun : Bool) (now : Nat)
    (st : StorageEngine) : Bool × StorageEngine :=
  if dryRun then (true, st)
  else
    let st0 := if clearExisting then (st.clearAll).2 else st
    let folded := pkg.data.foldl
      (fun (acc : Nat × StorageEngine) kv =>
        let (errs, s) := acc
        let (ok, s1) := s.set now kv.1 kv.2.value (restoreOptionsOf kv.2)
        (if ok then errs else errs + 1, s1))
      (0, st0)
    let (errs, st1) := folded
    let (_, st2) := st1.set now ("__nuvex_last_restore_metadata") (Val.str ("restore-metadata")) {}
    (errs == 0, st2)

/-! ## Verification predicates and concrete fixtures -/

/-- Well-formedness of the memory layer: every key is a non-empty string
(keys are non-empty byte strings in the data model, and the empty string
is JS-falsy, defeating the eviction guard) and the LRU bound holds. -/
def MemWF (st : MemoryStorage) : Prop :=
  (∀ p ∈ st.cache, p.1 ≠ "") ∧ st.cache.length ≤ st.maxSize

def StorageEngine.pingResult (st : StorageEngine) : StorageLayer → Bool
  | .memory => true
  | .redis => match st.l2Redis with | some r => r.ping | none => false
  | .postgres => match st.l3Postgres with | some p => p.ping | none => false

/-- An L3 whose backend rejects queries (write throws). -/
def c1FailingPg : PostgresStorage :=
  { connected := true, store := [], failOps := true }

/-- A connected engine whose L3 rejects writes (C1 scenario). -/
def c1Engine : StorageEngine :=
  { l1Memory := MemoryStorage.empty 10000,
    l2Redis := some { connected := true, store := [] },
    l3Postgres := some c1FailingPg,
    connected := true }

/-- A full memory layer (2 entries, capacity 2). -/
def c2FullMem : MemoryStorage :=
  { cache := [(("x"), { value := Val.num 1 }), (("y"), { value := Val.num 2 })], maxSize := 2 }

/-- A memory-only engine (no L2, no L3), empty L1. -/
def c3MemOnlyEngine : StorageEngine :=
  { l1Memory := MemoryStorage.empty 10000, l2Redis := none, l3Postgres := none,
    connected := true }

/-- A healthy, empty L3. -/
def c3Pg : PostgresStorage := { connected := true, store := [] }

/-- A connected engine with healthy L2 and L3. -/
def c3PgEngine : StorageEngine :=
  { l1Memory := MemoryStorage.empty 10000,
    l2Redis := some { connected := true, store := [] },
    l3Postgres := some c3Pg,
    connected := true }

/-- A schema configuration carrying a malicious table identifier. -/
def c4BadSchema : PostgresSchemaConfig := { tableName := some ("users; DROP TABLE x") }

/-- A connected two-layer engine whose L3 holds one non-internal key. -/
def c5PreState : StorageEngine :=
  { l1Memory := MemoryStorage.empty 10000, l2Redis := none,
    l3Postgres := some { connected := true, store := [(("a"), { value := Val.num 1 })] },
    connected := true }

/-- A connected two-layer engine with empty layers (restore target). -/
def c5EmptyEngine : StorageEngine :=
  { l1Memory := MemoryStorage.empty 10000, l2Redis := none,
    l3Postgres := some { connected := true, store := [] },
    connected := true }

/-- A memory layer holding one entry that expires at t = 1000. -/
def c6Mem : MemoryStorage :=
  { cache := [(("k"), { value := Val.num 7, expires := some 1000 })], maxSize := 10000 }

/-- The same single-entry memory layer, read before its expiry. -/
def c6MemLive : MemoryStorage :=
  { cache := [(("k"), { value := Val.num 7, expires := some 1000 })], maxSize := 10000 }

/-- A memory-only engine whose L1 already holds the numeric key `c`. -/
def c7MemOnlyEngine : StorageEngine :=
  { l1Memory := { cache := [(("c"), { value := Val.num 0 })], maxSize := 10000 },
    l2Redis := none, l3Postgres := none, connected := true }

/-- A connected engine without an L2 layer. -/
def c8NoRedisEngine : StorageEngine :=
  { l1Memory := MemoryStorage.empty 10000, l2Redis := none, l3Postgres := none,
    connected := true }

/-- A connected engine with healthy L3 and an L2 whose writes fail. -/
def c8Engine : StorageEngine :=
  { l1Memory := MemoryStorage.empty 10000,
    l2Redis := some { connected := true, store := [], failOps := true },
    l3Postgres := some { connected := true, store := [] },
    connected := true }

/-- A connected engine with no L2 and a healthy L3. -/
def c9Engine : StorageEngine :=
  { l1Memory := MemoryStorage.empty 10000, l2Redis := none,
    l3Postgres := some { connected := true, store := [] },
    connected := true }

/-- A healthy, empty L2. -/
def c10Redis : RedisStorage := { connected := true, store := [] }

/-- A healthy, empty L3 (C10 scenario). -/
def c10Pg : PostgresStorage := { connected := true, store := [] }

/-! ### Association-list lemmas -/

theorem mapHas_iff_exists {α : Type} (c : List (String × α)) (k : String) :
    mapHas c k = true ↔ ∃ v, (k, v) ∈ c := by
  simp only [mapHas, List.any_eq_true, beq_iff_eq]
  constructor
  · rintro ⟨⟨k', v⟩, hm, he⟩
    exact ⟨v, by simpa [he.symm] using hm⟩
  · rintro ⟨v, hv⟩
    exact ⟨(k, v), hv, rfl⟩

theorem length_mapSet {α : Type} (c : List (String × α)) (k : String) (v : α) :
    (mapSet c k v).length = if mapHas c k then c.length else c.length + 1 := by
  induction c with
  | nil => simp [mapSet, mapHas]
  | cons p rest ih =>
    by_cases h : p.1 = k
    · simp [mapSet, mapHas, h]
    · have hb : (p.1 == k) = false := beq_eq_false_iff_ne.2 h
      have hstep : mapSet (p :: rest) k v = p :: mapSet rest k v := by
        simp [mapSet, hb]
      rw [hstep]
      simp only [mapHas, List.any_cons, hb, Bool.false_or, List.length_cons]
      simp only [mapHas] at ih
      cases hh : rest.any (fun q => q.1 == k) <;> simp [hh] at ih ⊢ <;> omega

theorem mem_mapSet {α : Type} {c : List (String × α)} {k : String} {v : α} {p : String × α}
    (h : p ∈ mapSet c k v) : p = (k, v) ∨ p ∈ c := by
  induction c with
  | nil => simpa [mapSet] using h
  | cons q rest ih =>
    by_cases hq : q.1 = k
    · simp only [mapSet, hq, beq_self_eq_true, if_true, List.mem_cons] at h
      rcases h with h | h
      · exact Or.inl h
      · exact Or.inr (List.mem_cons_of_mem _ h)
    · have hb : (q.1 == k) = false := beq_eq_false_iff_ne.2 hq
      have hstep : mapSet (q :: rest) k v = q :: mapSet rest k v := by
        simp [mapSet, hb]
      rw [hstep] at h
      rcases List.mem_cons.1 h with h | h
      · exact Or.inr (by simp [h])
      · rcases ih h with h' | h'
        · exact Or.inl h'
        · exact Or.inr (List.mem_cons_of_mem _ h')

theorem mapGet_mapSet_self {α : Type} (c : List (String × α)) (k : String) (v : α) :
    mapGet (mapSet c k v) k = some v := by
  induction c with
  | nil => simp [mapSet, mapGet]
  | cons p rest ih =>
    by_cases h : p.1 = k
    · simp [mapSet, mapGet, h]
    · have hb : (p.1 == k) = false := beq_eq_false_iff_ne.2 h
      simpa [mapSet, mapGet, hb] using ih

theorem mapHas_mapSet {α : Type} (c : List (String × α)) (k k' : String) (v : α) :
    mapHas (mapSet c k v) k' = (k' == k || mapHas c k') := by
  induction c with
  | nil =>
    by_cases h : k' = k
    · simp [mapSet, mapHas, h]
    · have h1 : (k == k') = false := beq_eq_false_iff_ne.2 (fun he => h he.symm)
      have h2 : (k' == k) = false := beq_eq_false_iff_ne.2 h
      simp [mapSet, mapHas, h1, h2]
  | cons q rest ih =>
    by_cases hq : q.1 = k
    · have hb : (q.1 == k) = true := beq_iff_eq.2 hq
      by_cases h : k' = k
      · simp [mapSet, mapHas, hb, h, hq]
      · have h1 : (k == k') = false := beq_eq_false_iff_ne.2 (fun he => h he.symm)
        have h2 : (k' == k) = false := beq_eq_false_iff_ne.2 h
        have h3 : (q.1 == k') = false := by rw [hq]; exact h1
        simp [mapSet, mapHas, hb, h1, h2, h3]
    · have hb : (q.1 == k) = false := beq_eq_false_iff_ne.2 hq
      have hstep : mapSet (q :: rest) k v = q :: mapSet rest k v := by
        simp [mapSet, hb]
      rw [hstep]
      simp only [mapHas, List.any_cons] at ih ⊢
      rw [ih]
      cases (q.1 == k') <;> cases (k' == k) <;> simp

theorem length_mapDelete_le {α : Type} (c : List (String × α)) (k : String) :
    (mapDelete c k).length ≤ c.length :=
  List.length_filter_le _ c

theorem length_mapDelete_lt_of_has {α : Type} (c : List (String × α)) (k : String)
    (h : mapHas c k = true) : (mapDelete c k).length < c.length := by
  obtain ⟨v, hv⟩ := (mapHas_iff_exists c k).1 h
  induction c with
  | nil => cases hv
  | cons p rest ih =>
    rcases List.mem_cons.1 hv with he | hm
    · simp [mapDelete, ← he, Nat.lt_succ_of_le, List.length_filter_le]
    · by_cases hp : p.1 = k
      · simp [mapDelete, hp, Nat.lt_succ_of_le, List.length_filter_le]
      · have hb : (p.1 != k) = true := by simp [hp]
        have hh : mapHas rest k = true := (mapHas_iff_exists rest k).2 ⟨v, hm⟩
        simpa [mapDelete, hb] using Nat.succ_lt_succ (ih hh hm)

theorem mapHas_mapDelete {α : Type} (c : List (String × α)) (k k' : String) :
    mapHas (mapDelete c k) k' = (k' != k && mapHas c k') := by
  induction c with
  | nil => simp [mapDelete, mapHas]
  | cons p rest ih =>
    simp only [mapDelete, List.filter_cons] at ih ⊢
    by_cases hp : p.1 = k
    · have hb : (p.1 != k) = false := by simp [hp]
      rw [hb]
      simp only [Bool.false_eq_true, if_false]
      rw [ih]
      by_cases h' : k' = k
      · simp [h']
      · have h3 : (p.1 == k') = false := by
          rw [hp]; exact beq_eq_false_iff_ne.2 (fun he => h' he.symm)
        simp [mapHas, h3]
    · have hb : (p.1 != k) = true := by simp [hp]
      rw [hb]
      simp only [if_true]
      by_cases h' : k' = k
      · have h1 : (p.1 == k') = false :=
          beq_eq_false_iff_ne.2 (fun he => hp (he.trans h'))
        have h2 : (k' != k) = false := by simp [h']
        have ih' := ih
        rw [h2, Bool.false_and] at ih'
        simp only [mapHas, List.any_cons, h1, Bool.false_or, h2, Bool.false_and]
        simp only [mapHas] at ih'
        exact ih'
      · have h2 : (k' != k) = true := by simp [h']
        simp only [mapHas, List.any_cons] at ih ⊢
        rw [ih, h2]
        cases (p.1 == k') <;> simp

theorem mapDelete_of_not_has {α : Type} (c : List (String × α)) (k : String)
    (h : mapHas c k = false) : mapDelete c k = c := by
  apply List.filter_eq_self.2
  intro p hp
  simp only [mapHas] at h
  have hne := List.any_eq_false.1 h p hp
  simp only [bne_iff_ne, ne_eq]
  intro he
  exact hne (beq_iff_eq.2 he)

theorem mem_mapDelete {α : Type} {c : List (String × α)} {k : String} {p : String × α}
    (h : p ∈ mapDelete c k) : p ∈ c :=
  List.mem_of_mem_filter h

theorem mapGet_isSome_iff_has {α : Type} (c : List (String × α)) (k : String) :
    (mapGet c k).isSome = mapHas c k := by
  induction c with
  | nil => rfl
  | cons p rest ih =>
    by_cases hp : p.1 = k
    · have hb : (p.1 == k) = true := beq_iff_eq.2 hp
      have hf : List.find? (fun q => q.1 == k) (p :: rest) = some p :=
        List.find?_cons_of_pos _ hb
      simp [mapGet, mapHas, hf, hb]
    · have hb : (p.1 == k) = false := beq_eq_false_iff_ne.2 hp
      have hf : List.find? (fun q => q.1 == k) (p :: rest) =
          List.find? (fun q => q.1 == k) rest :=
        List.find?_cons_of_neg _ (by simp [hb])
      simp only [mapGet, hf, mapHas, List.any_cons, hb, Bool.false_or]
      simpa [mapGet, mapHas] using ih

theorem mapHas_of_mapGet_eq_some {α : Type} {c : List (String × α)} {k : String} {v : α}
    (h : mapGet c k = some v) : mapHas c k = true := by
  have hs := mapGet_isSome_iff_has c k
  rw [h] at hs
  exact hs.symm

/-! ## Structural lemmas about the memory layer -/

theorem mem_of_mapGet_eq_some {α : Type} {c : List (String × α)} {k : String} {v : α}
    (h : mapGet c k = some v) : (k, v) ∈ c := by
  unfold mapGet at h
  cases hf : c.find? (fun p => p.1 == k) with
  | none => rw [hf] at h; cases h
  | some p =>
    rw [hf] at h
    have hm := List.mem_of_find?_eq_some hf
    have hpred := List.find?_some hf
    obtain ⟨a, b⟩ := p
    simp only [Option.map_some'] at h
    rw [Option.some.injEq] at h
    simp only at h hpred
    have ha : a = k := beq_iff_eq.1 hpred
    rw [← h, ← ha]
    exact hm

theorem memSet_cache (st : MemoryStorage) (now : Nat) (key : String) (value : Val)
    (ttl : Option Nat) :
    (st.set now key value ttl).cache =
      mapSet (if st.cache.length ≥ st.maxSize ∧ mapHas st.cache key = false then
                match st.cache.head? with
                | some (firstKey, _) =>
                  if firstKey = "" then st.cache else mapDelete st.cache firstKey
                | none => st.cache
              else st.cache) key (memEntryOf now value ttl) := rfl

theorem memSet_WF (st : MemoryStorage) (now : Nat) (key : String) (value : Val)
    (ttl : Option Nat) (hmax : 1 ≤ st.maxSize) (hkey : key ≠ "") (hwf : MemWF st) :
    MemWF (st.set now key value ttl) := by
  obtain ⟨hkeys, hlen⟩ := hwf
  constructor
  · intro p hp
    rw [memSet_cache] at hp
    rcases mem_mapSet hp with h | h
    · rw [h]; exact hkey
    · have hmem : p ∈ st.cache := by
        by_cases hcond : st.cache.length ≥ st.maxSize ∧ mapHas st.cache key = false
        · rw [if_pos hcond] at h
          cases hhead : st.cache.head? with
          | none => rwa [hhead] at h
          | some q =>
            rw [hhead] at h
            obtain ⟨fk, e0⟩ := q
            have h' : p ∈ (if fk = "" then st.cache else mapDelete st.cache fk) := h
            by_cases hfk : fk = ""
            · rwa [if_pos hfk] at h'
            · rw [if_neg hfk] at h'; exact mem_mapDelete h'
        · rwa [if_neg hcond] at h
      exact hkeys p hmem
  · show (st.set now key value ttl).cache.length ≤ (st.set now key value ttl).maxSize
    have hms : (st.set now key value ttl).maxSize = st.maxSize := rfl
    rw [hms, memSet_cache]
    by_cases hcond : st.cache.length ≥ st.maxSize ∧ mapHas st.cache key = false
    · obtain ⟨hge, hfresh⟩ := hcond
      rw [if_pos ⟨hge, hfresh⟩]
      have hne : st.cache ≠ [] := by
        intro hnil
        rw [hnil] at hge
        simp at hge
        omega
      obtain ⟨q, rest, hc⟩ := List.exists_cons_of_ne_nil hne
      obtain ⟨fk, e0⟩ := q
      have hhead : st.cache.head? = some (fk, e0) := by rw [hc]; rfl
      rw [hhead]
      have hfkmem : (fk, e0) ∈ st.cache := by rw [hc]; exact List.mem_cons_self _ _
      have hfk : fk ≠ "" := hkeys _ hfkmem
      show (mapSet (if fk = "" then st.cache else mapDelete st.cache fk) key
        (memEntryOf now value ttl)).length ≤ st.maxSize
      rw [if_neg hfk]
      have hhasfk : mapHas st.cache fk = true := (mapHas_iff_exists _ _).2 ⟨e0, hfkmem⟩
      have hdel : (mapDelete st.cache fk).length < st.cache.length :=
        length_mapDelete_lt_of_has _ _ hhasfk
      have hnew : mapHas (mapDelete st.cache fk) key = false := by
        rw [mapHas_mapDelete, hfresh, Bool.and_false]
      rw [length_mapSet]
      simp only [hnew, Bool.false_eq_true, if_false]
      omega
    · rw [if_neg hcond, length_mapSet]
      by_cases hhas : mapHas st.cache key
      · rw [if_pos hhas]; exact hlen
      · rw [if_neg hhas]
        have hlt : ¬ st.cache.length ≥ st.maxSize := by
          intro hge
          exact hcond ⟨hge, by simpa using hhas⟩
        omega

theorem memGet_WF (st : MemoryStorage) (now : Nat) (key : String) (hwf : MemWF st) :
    MemWF ((st.get now key).2) := by
  obtain ⟨hkeys, hlen⟩ := hwf
  unfold MemoryStorage.get
  split
  · exact ⟨hkeys, hlen⟩
  · rename_i entry hg
    split
    · exact ⟨fun p hp => hkeys p (mem_mapDelete hp),
             le_trans (length_mapDelete_le _ _) hlen⟩
    · have hkmem : (key, entry) ∈ st.cache := mem_of_mapGet_eq_some hg
      have hkey : key ≠ "" := hkeys _ hkmem
      have hhas : mapHas st.cache key = true := (mapHas_iff_exists _ _).2 ⟨entry, hkmem⟩
      constructor
      · intro p hp
        rcases mem_mapSet hp with h | h
        · rw [h]; exact hkey
        · exact hkeys p (mem_mapDelete h)
      · show (mapSet (mapDelete st.cache key) key entry).length ≤ st.maxSize
        have hfresh : mapHas (mapDelete st.cache key) key = false := by
          rw [mapHas_mapDelete]
          simp
        rw [length_mapSet]
        simp only [hfresh, Bool.false_eq_true, if_false]
        have := length_mapDelete_lt_of_has st.cache key hhas
        omega

theorem memHasKey_WF (st : MemoryStorage) (now : Nat) (key : String) (hwf : MemWF st) :
    MemWF ((st.hasKey now key).2) := by
  obtain ⟨hkeys, hlen⟩ := hwf
  unfold MemoryStorage.hasKey
  split
  · exact ⟨hkeys, hlen⟩
  · split
    · exact ⟨fun p hp => hkeys p (mem_mapDelete hp),
             le_trans (length_mapDelete_le _ _) hlen⟩
    · exact ⟨hkeys, hlen⟩

theorem memPing_WF (st : MemoryStorage) (hwf : MemWF st) : MemWF ((st.ping).2) := by
  obtain ⟨hkeys, hlen⟩ := hwf
  constructor
  · intro p hp
    have hp' : p ∈ mapSet st.cache memHealthCheckKey { value := Val.bool true } :=
      mem_mapDelete hp
    rcases mem_mapSet hp' with h | h
    · exfalso
      unfold MemoryStorage.ping mapDelete at hp
      have hpred := List.of_mem_filter hp
      rw [h] at hpred
      simp at hpred
    · exact hkeys p h
  · show (mapDelete (mapSet st.cache memHealthCheckKey { value := Val.bool true })
      memHealthCheckKey).length ≤ st.maxSize
    by_cases hhas : mapHas st.cache memHealthCheckKey
    · have h1 : (mapSet st.cache memHealthCheckKey
          { value := Val.bool true }).length = st.cache.length := by
        rw [length_mapSet, if_pos hhas]
      have h2 := length_mapDelete_le
        (mapSet st.cache memHealthCheckKey { value := Val.bool true }) memHealthCheckKey
      omega
    · have h1 : (mapSet st.cache memHealthCheckKey
          { value := Val.bool true }).length = st.cache.length + 1 := by
        rw [length_mapSet, if_neg hhas]
      have h2 : mapHas (mapSet st.cache memHealthCheckKey { value := Val.bool true })
          memHealthCheckKey = true := by
        rw [mapHas_mapSet]
        simp
      have h3 := length_mapDelete_lt_of_has
        (mapSet st.cache memHealthCheckKey { value := Val.bool true }) memHealthCheckKey h2
      omega

theorem memCleanup_WF (st : MemoryStorage) (now : Nat) (hwf : MemWF st) :
    MemWF ((st.cleanup now).2) := by
  obtain ⟨hkeys, hlen⟩ := hwf
  exact ⟨fun p hp => hkeys p (List.mem_of_mem_filter hp),
         le_trans (List.length_filter_le _ _) hlen⟩

theorem memGet_maxSize (st : MemoryStorage) (now : Nat) (key : String) :
    ((st.get now key).2).maxSize = st.maxSize := by
  unfold MemoryStorage.get
  split
  · rfl
  · split <;> rfl

theorem memHasKey_maxSize (st : MemoryStorage) (now : Nat) (key : String) :
    ((st.hasKey now key).2).maxSize = st.maxSize := by
  unfold MemoryStorage.hasKey
  split
  · rfl
  · split <;> rfl

theorem memStep_WF (st : MemoryStorage) (op : MemOp) (hmax : 1 ≤ st.maxSize)
    (hwf : MemWF st) (hgood : op.goodKey) :
    MemWF (op.step st) ∧ (op.step st).maxSize = st.maxSize := by
  cases op with
  | get now key => exact ⟨memGet_WF st now key hwf, memGet_maxSize st now key⟩
  | set now key value ttl =>
    exact ⟨memSet_WF st now key value ttl hmax (hgood key rfl) hwf, rfl⟩
  | del key =>
    exact ⟨⟨fun p hp => hwf.1 p (mem_mapDelete hp),
            le_trans (length_mapDelete_le _ _) hwf.2⟩, rfl⟩
  | hasKey now key => exact ⟨memHasKey_WF st now key hwf, memHasKey_maxSize st now key⟩
  | clear =>
    exact ⟨⟨fun p hp => by simp [MemOp.step, MemoryStorage.clear] at hp,
            by simp [MemOp.step, MemoryStorage.clear]⟩, rfl⟩
  | ping => exact ⟨memPing_WF st hwf, rfl⟩
  | cleanup now => exact ⟨memCleanup_WF st now hwf, rfl⟩

theorem runMemOps_WF (ops : List MemOp) : ∀ (st : MemoryStorage), 1 ≤ st.maxSize →
    MemWF st → (∀ op ∈ ops, op.goodKey) →
    MemWF (runMemOps st ops) ∧ (runMemOps st ops).maxSize = st.maxSize := by
  induction ops with
  | nil =>
    intro st _ hwf _
    exact ⟨hwf, rfl⟩
  | cons op ops ih =>
    intro st hmax hwf hgood
    have hstep := memStep_WF st op hmax hwf (hgood op (List.mem_cons_self _ _))
    have hmax' : 1 ≤ (op.step st).maxSize := hstep.2 ▸ hmax
    obtain ⟨h1, h2⟩ := ih (op.step st) hmax' hstep.1
      (fun o ho => hgood o (List.mem_cons_of_mem _ ho))
    exact ⟨h1, h2.trans hstep.2⟩

theorem memSet_evicts_lru (st : MemoryStorage) (now : Nat) (key : String) (value : Val)
    (ttl : Option Nat) (hkeys : ∀ p ∈ st.cache, p.1 ≠ "")
    (hfull : st.cache.length ≥ st.maxSize) (hmax : 1 ≤ st.maxSize)
    (hfresh : mapHas st.cache key = false) :
    ∃ fk e0 rest, st.cache = (fk, e0) :: rest ∧ fk ≠ "" ∧
      ∀ k', mapHas (st.set now key value ttl).cache k' =
        (k' == key || (mapHas st.cache k' && k' != fk)) := by
  have hne : st.cache ≠ [] := by
    intro hnil
    rw [hnil] at hfull
    simp at hfull
    omega
  obtain ⟨q, rest, hc⟩ := List.exists_cons_of_ne_nil hne
  obtain ⟨fk, e0⟩ := q
  have hfkmem : (fk, e0) ∈ st.cache := by rw [hc]; exact List.mem_cons_self _ _
  have hfk : fk ≠ "" := hkeys _ hfkmem
  refine ⟨fk, e0, rest, hc, hfk, ?_⟩
  intro k'
  have hhead : st.cache.head? = some (fk, e0) := by rw [hc]; rfl
  rw [memSet_cache, if_pos ⟨hfull, hfresh⟩, hhead]
  show mapHas (mapSet (if fk = "" then st.cache else mapDelete st.cache fk) key
    (memEntryOf now value ttl)) k' = _
  rw [if_neg hfk, mapHas_mapSet, mapHas_mapDelete, Bool.and_comm]

/-! ## Lemmas about the Redis layer and health checks -/

theorem redisSet_of_failOps (r : RedisStorage) (now : Nat) (key : String) (value : Val)
    (ttl : Option Nat) (h : r.failOps = true) : r.set now key value ttl = r := by
  unfold RedisStorage.set
  cases hc : r.connected <;> simp [hc, h]

theorem pingLayer_fst (st : StorageEngine) (l : StorageLayer) :
    (st.pingLayer l).1 = st.pingResult l := by
  cases l <;> rfl

theorem pingLayer_preserves (st : StorageEngine) (l : StorageLayer) :
    (st.pingLayer l).2.l2Redis = st.l2Redis ∧ (st.pingLayer l).2.l3Postgres = st.l3Postgres := by
  cases l <;> exact ⟨rfl, rfl⟩

theorem pingResult_congr (st st' : StorageEngine) (h2 : st'.l2Redis = st.l2Redis)
    (h3 : st'.l3Postgres = st.l3Postgres) (l : StorageLayer) :
    st'.pingResult l = st.pingResult l := by
  cases l <;> simp [StorageEngine.pingResult, h2, h3]

theorem healthChecks_spec (S : List StorageLayer) : ∀ (st : StorageEngine),
    (st.healthChecks S).1 = S.map (fun l => (l, st.pingResult l)) ∧
    (st.healthChecks S).2.l2Redis = st.l2Redis ∧
    (st.healthChecks S).2.l3Postgres = st.l3Postgres := by
  induction S with
  | nil => intro st; exact ⟨rfl, rfl, rfl⟩
  | cons l ls ih =>
    intro st
    obtain ⟨hrest, h2, h3⟩ := ih (st.pingLayer l).2
    have hpres := pingLayer_preserves st l
    have heq : st.healthChecks (l :: ls) =
        ((l, (st.pingLayer l).1) :: ((st.pingLayer l).2.healthChecks ls).1,
         ((st.pingLayer l).2.healthChecks ls).2) := by
      simp only [StorageEngine.healthChecks]
    have hcongr : ∀ l', (st.pingLayer l).2.pingResult l' = st.pingResult l' :=
      pingResult_congr st _ hpres.1 hpres.2
    refine ⟨?_, ?_, ?_⟩
    · rw [heq]
      simp only [List.map_cons]
      rw [pingLayer_fst, hrest]
      have hfun : (fun l' => (l', (st.pingLayer l).2.pingResult l')) =
          (fun l' : StorageLayer => (l', st.pingResult l')) :=
        funext (fun l' => by rw [hcongr l'])
      rw [hfun]
    · rw [heq]
      exact h2.trans hpres.1
    · rw [heq]
      exact h3.trans hpres.2

/-! ## Claims -/

/-- Claim C1: when L3 is configured and a default multi-layer `set` runs on
a connected engine, a thrown L3 write makes `set` return `false` with no
write attempted on L1 or L2 — both cache layers are left unchanged. -/
theorem engine_set_l3_throw_leaves_caches (st : StorageEngine) (now : Nat) (key : String)
    (value : Val) (ttl : Option Nat) (p : PostgresStorage) (msg : String)
    (hconn : st.connected = true)
    (hpg : st.l3Postgres = some p)
    (hthrow : p.set now key value ttl = .error msg) :
    (st.set now key value { ttl := ttl }).1 = false ∧
    (st.set now key value { ttl := ttl }).2.l1Memory = st.l1Memory ∧
    (st.set now key value { ttl := ttl }).2.l2Redis = st.l2Redis := by
  simp [StorageEngine.set, hconn, hpg, hthrow]

/-- Witness for C1: on a concrete connected engine whose L3 rejects
writes, `set` returns `false` and both caches are untouched. -/
theorem engine_set_l3_throw_leaves_caches_witness :
    c1Engine.connected = true ∧
    c1Engine.l3Postgres = some c1FailingPg ∧
    c1FailingPg.set 0 ("x") (Val.num 1) none = .error ("PostgreSQL query failed") ∧
    ((c1Engine.set 0 ("x") (Val.num 1) { ttl := none }).1 = false ∧
     (c1Engine.set 0 ("x") (Val.num 1) { ttl := none }).2.l1Memory = c1Engine.l1Memory ∧
     (c1Engine.set 0 ("x") (Val.num 1) { ttl := none }).2.l2Redis = c1Engine.l2Redis) :=
  ⟨rfl, rfl, rfl,
   engine_set_l3_throw_leaves_caches c1Engine 0 ("x") (Val.num 1) none c1FailingPg
     ("PostgreSQL query failed") rfl rfl rfl⟩

/-- Counterexample to C2 as stated: with `maxSize = 0` a single `set`
stores one entry (1 > 0), and with `maxSize = 1` an empty-string key
defeats the JS-truthiness eviction guard, letting a second entry in. -/
theorem memory_lru_bound_counterexample :
    ((MemoryStorage.empty 0).set 0 ("a") (Val.num 1) none).cache.length = 1 ∧
    (MemoryStorage.empty 0).maxSize = 0 ∧
    (((MemoryStorage.empty 1).set 0 ("") (Val.num 1) none).set 0 ("b")
      (Val.num 2) none).cache.length = 2 ∧
    (MemoryStorage.empty 1).maxSize = 1 := by
  refine ⟨rfl, rfl, rfl, rfl⟩

/-- Claim C2 (amended): for capacities `maxSize ≥ 1` and non-empty keys,
the number of stored entries never exceeds `maxSize` after any operation;
when `set` must evict (store full, key fresh) the victim is the head of
the insertion order — the least-recently-used entry, since `get` moves an
entry to the tail; and the concrete trace
`set a, set b, set c, get a, set d` at `maxSize = 3` leaves exactly
`{c, a, d}` with `b` evicted. -/
theorem memory_lru_bound_and_eviction :
    (∀ (maxSize : Nat) (ops : List MemOp), 1 ≤ maxSize → (∀ op ∈ ops, op.goodKey) →
      (runMemOps (MemoryStorage.empty maxSize) ops).cache.length ≤ maxSize) ∧
    (∀ (st : MemoryStorage) (now : Nat) (key : String) (value : Val) (ttl : Option Nat),
      (∀ p ∈ st.cache, p.1 ≠ "") → st.cache.length ≥ st.maxSize → 1 ≤ st.maxSize →
      mapHas st.cache key = false →
      ∃ fk e0 rest, st.cache = (fk, e0) :: rest ∧ fk ≠ "" ∧
        ∀ k', mapHas (st.set now key value ttl).cache k' =
          (k' == key || (mapHas st.cache k' && k' != fk))) ∧
    ((runMemOps (MemoryStorage.empty 3)
        [MemOp.set 0 ("a") (Val.num 1) none, MemOp.set 0 ("b") (Val.num 2) none,
         MemOp.set 0 ("c") (Val.num 3) none, MemOp.get 0 ("a"),
         MemOp.set 0 ("d") (Val.num 4) none]).cache.map Prod.fst = [("c"), ("a"), ("d")]) := by
  refine ⟨?_, ?_, by decide⟩
  · intro maxSize ops hmax hgood
    have hwf0 : MemWF (MemoryStorage.empty maxSize) :=
      ⟨fun p hp => by simp [MemoryStorage.empty] at hp, by simp [MemoryStorage.empty]⟩
    have h := runMemOps_WF ops (MemoryStorage.empty maxSize) hmax hwf0 hgood
    have hb := h.1.2
    rw [h.2] at hb
    exact hb
  · intro st now key value ttl hkeys hfull hmax hfresh
    exact memSet_evicts_lru st now key value ttl hkeys hfull hmax hfresh

/-- Witness for C2: the bound instantiated at `maxSize = 3` with a
two-operation trace, and the LRU-victim characterization instantiated on a
concrete full cache. -/
theorem memory_lru_bound_and_eviction_witness :
    (1 : Nat) ≤ 3 ∧
    (runMemOps (MemoryStorage.empty 3)
      [MemOp.set 0 ("a") (Val.num 1) none, MemOp.get 0 ("a")]).cache.length ≤ 3 ∧
    (∃ fk e0 rest, c2FullMem.cache = (fk, e0) :: rest ∧ fk ≠ "" ∧
      ∀ k', mapHas (c2FullMem.set 0 ("z") (Val.num 3) none).cache k' =
        (k' == ("z") || (mapHas c2FullMem.cache k' && k' != fk))) :=
  ⟨by omega,
   memory_lru_bound_and_eviction.1 3
     [MemOp.set 0 ("a") (Val.num 1) none, MemOp.get 0 ("a")] (by omega)
     (by
       intro op hop
       fin_cases hop <;>
         · intro k hk
           simp [MemOp.key?] at hk
           subst hk
           decide),
   memory_lru_bound_and_eviction.2.1 c2FullMem 0 ("z") (Val.num 3) none
     (by
       intro p hp
       fin_cases hp <;> decide)
     (by decide) (by decide) (by decide)⟩

/-- Counterexample to C3 as stated: in a memory-only configuration the
engine's `increment` throws instead of performing the increment on L1 —
`MemoryStorage` defines no `increment` method, so L1 never participates in
the cascade. -/
theorem increment_cascade_counterexample :
    c3MemOnlyEngine.increment 0 ("c") 1 none =
      .error ("No storage layer available for increment operation") := rfl

/-- Claim C3 (amended): `increment` performs the native atomic increment
on the most authoritative layer that has an increment operation, in the
order L3 > L2; it then writes the resulting value `v` (via plain `set`,
not `increment`, with the same converted TTL) to every less authoritative
layer above the chosen one and returns `v`.  L1 has no native increment in
this revision, so with neither L3 nor L2 the engine throws. -/
theorem increment_cascade (now : Nat) (key : String) (delta : Int) (ttl : Option Nat) :
    (∀ st p v p', (st : StorageEngine).l3Postgres = some p →
      p.increment now key delta (ttlSecondsOfMs ttl) = .ok (v, p') →
      st.increment now key delta ttl = .ok (v,
        { st with l3Postgres := some p',
                  l2Redis := st.l2Redis.map (fun r => r.set now key (Val.num v) (ttlSecondsOfMs ttl)),
                  l1Memory := st.l1Memory.set now key (Val.num v) (ttlSecondsOfMs ttl) })) ∧
    (∀ st r v r', (st : StorageEngine).l3Postgres = none → st.l2Redis = some r →
      r.increment now key delta (ttlSecondsOfMs ttl) = .ok (v, r') →
      st.increment now key delta ttl = .ok (v,
        { st with l2Redis := some r',
                  l1Memory := st.l1Memory.set now key (Val.num v) (ttlSecondsOfMs ttl) })) ∧
    (∀ st, (st : StorageEngine).l3Postgres = none → st.l2Redis = none →
      st.increment now key delta ttl =
        .error ("No storage layer available for increment operation")) := by
  refine ⟨?_, ?_, ?_⟩
  · intro st p v p' hpg hinc
    cases hr : st.l2Redis <;> simp [StorageEngine.increment, hpg, hinc, hr]
  · intro st r v r' hpg hr hinc
    simp [StorageEngine.increment, hpg, hr, hinc]
  · intro st hpg hr
    simp [StorageEngine.increment, hpg, hr]

/-- Witness for C3: on a concrete engine with L3 and L2, `increment`
increments at L3 and propagates the result to L2 and L1 via `set`. -/
theorem increment_cascade_witness :
    c3PgEngine.l3Postgres = some c3Pg ∧
    c3Pg.increment 0 ("c") 5 (ttlSecondsOfMs none) =
      .ok (5, { connected := true, store := [(("c"), { value := Val.num 5 })] }) ∧
    c3PgEngine.increment 0 ("c") 5 none = .ok (5,
      { c3PgEngine with
          l3Postgres := some { connected := true, store := [(("c"), { value := Val.num 5 })] },
          l2Redis := c3PgEngine.l2Redis.map (fun r => r.set 0 ("c") (Val.num 5) (ttlSecondsOfMs none)),
          l1Memory := c3PgEngine.l1Memory.set 0 ("c") (Val.num 5) (ttlSecondsOfMs none) }) :=
  ⟨rfl, rfl,
   (increment_cascade 0 ("c") 5 none).1 c3PgEngine c3Pg 5
     { connected := true, store := [(("c"), { value := Val.num 5 })] } rfl rfl⟩

/-- Claim C4: every identifier resolved by schema generation or by the
`PostgresStorage` constructor is validated against
`^[A-Za-z_][A-Za-z0-9_]*$` before any SQL is built: an invalid (or empty)
identifier makes both throw, and every identifier carried by a
successfully generated schema matches the regex. -/
theorem sql_identifier_safety :
    (∀ schema sql, generateNuvexSchemaSQL schema = .ok sql →
       isValidSQLIdentifier sql.tableName = true ∧
       isValidSQLIdentifier sql.keyColumn = true ∧
       isValidSQLIdentifier sql.valueColumn = true) ∧
    (∀ schema, (isValidSQLIdentifier (resolvedTableName schema) = false ∨
                isValidSQLIdentifier (resolvedKeyColumn schema) = false ∨
                isValidSQLIdentifier (resolvedValueColumn schema) = false) →
       (∃ msg, generateNuvexSchemaSQL schema = .error msg) ∧
       (∃ msg, postgresCtorIdentifiers schema = .error msg)) ∧
    (∀ schema sql, postgresCtorIdentifiers schema = .ok sql →
       isValidSQLIdentifier sql.tableName = true ∧
       isValidSQLIdentifier sql.keyColumn = true ∧
       isValidSQLIdentifier sql.valueColumn = true) := by
  refine ⟨?_, ?_, ?_⟩
  · intro schema sql h
    by_cases h1 : isValidSQLIdentifier (resolvedTableName schema) <;>
      by_cases h2 : isValidSQLIdentifier (resolvedKeyColumn schema) <;>
      by_cases h3 : isValidSQLIdentifier (resolvedValueColumn schema) <;>
      simp [generateNuvexSchemaSQL, validateSQLIdentifier, h1, h2, h3] at h <;>
      simp [← h, h1, h2, h3]
  · intro schema hbad
    by_cases h1 : isValidSQLIdentifier (resolvedTableName schema) <;>
      by_cases h2 : isValidSQLIdentifier (resolvedKeyColumn schema) <;>
      by_cases h3 : isValidSQLIdentifier (resolvedValueColumn schema) <;>
      simp [h1, h2, h3] at hbad ⊢ <;>
      simp [generateNuvexSchemaSQL, postgresCtorIdentifiers, validateSQLIdentifier, h1, h2, h3]
  · intro schema sql h
    by_cases h1 : isValidSQLIdentifier (resolvedTableName schema) <;>
      by_cases h2 : isValidSQLIdentifier (resolvedKeyColumn schema) <;>
      by_cases h3 : isValidSQLIdentifier (resolvedValueColumn schema) <;>
      simp [postgresCtorIdentifiers, validateSQLIdentifier, h1, h2, h3] at h <;>
      simp [← h, h1, h2, h3]

/-- Witness for C4: a malicious table name is rejected by both schema
generation and the constructor, while the default identifiers pass. -/
theorem sql_identifier_safety_witness :
    isValidSQLIdentifier (resolvedTableName (some c4BadSchema)) = false ∧
    (∃ msg, generateNuvexSchemaSQL (some c4BadSchema) = .error msg) ∧
    (∃ msg, postgresCtorIdentifiers (some c4BadSchema) = .error msg) ∧
    (isValidSQLIdentifier (("nuvex_storage")) = true ∧
     isValidSQLIdentifier (("nuvex_key")) = true ∧
     isValidSQLIdentifier (("nuvex_data")) = true) :=
  have hbad := sql_identifier_safety.2.1 (some c4BadSchema) (Or.inl (by decide))
  ⟨by decide, hbad.1, hbad.2, sql_identifier_safety.1 none _ rfl⟩

/-- Claim C5 is the intended behavior but the code loses the data: on a
store holding the non-internal key `a`, `backup` produces an empty `data`
envelope (key enumeration is the deprecated `keys()` stub returning `[]`),
so restoring it into an empty engine does not reproduce the mapping —
reading `a` afterwards yields nothing. -/
theorem backup_restore_loses_data :
    (c5PreState.get 0 ("a") {}).1 = some (Val.num 1) ∧
    (NuvexClient.backup c5PreState 0).1.data = [] ∧
    (NuvexClient.backup c5PreState 0).1.keyCount = 0 ∧
    ((NuvexClient.restore (NuvexClient.backup c5PreState 0).1 false false 0
        c5EmptyEngine).2.get 0 ("a") {}).1 = none :=
  ⟨rfl, rfl, rfl, rfl⟩

/-- Counterexample to C6 as stated: the memory layer returns a value at
exactly its expiry instant (the source tests `Date.now() > expires`, not
`>=`), so the moment of return is not strictly before the expiry. -/
theorem ttl_strictness_counterexample :
    (c6Mem.get 1000 ("k")).1 = some (Val.num 7) ∧ ¬ ((1000 : Nat) < 1000) :=
  ⟨rfl, by omega⟩

/-- Claim C6 (amended): no layer returns a value strictly after its
expiry: the memory layer's `get` and `exists` return a value only while
`now ≤ expiry` (the boundary instant included; a zero expiry is JS-falsy
and means no expiration), while the PostgreSQL and Redis layers are
strict (`now < expiry`). -/
theorem layer_expiry_bound :
    (∀ (st : MemoryStorage) (now : Nat) (key : String) (entry : MemoryCacheEntry) (e : Nat),
      mapGet st.cache key = some entry → entry.expires = some e → 0 < e →
      (st.get now key).1.isSome = true → now ≤ e) ∧
    (∀ (st : MemoryStorage) (now : Nat) (key : String) (entry : MemoryCacheEntry) (e : Nat),
      mapGet st.cache key = some entry → entry.expires = some e → 0 < e →
      (st.hasKey now key).1 = true → now ≤ e) ∧
    (∀ (p : PostgresStorage) (now : Nat) (key : String) (row : PgRow) (e : Nat),
      mapGet p.store key = some row → row.expiresAt = some e →
      (p.get now key).isSome = true → now < e) ∧
    (∀ (r : RedisStorage) (now : Nat) (key : String) (entry : RedisEntry) (e : Nat),
      mapGet r.store key = some entry → entry.expiresAt = some e →
      (r.get now key).isSome = true → now < e) := by
  refine ⟨?_, ?_, ?_, ?_⟩
  · intro st now key entry e hget hexp hpos hret
    unfold MemoryStorage.get at hret
    rw [hget] at hret
    by_cases hb : entry.isExpired now
    · simp [hb] at hret
    · unfold MemoryCacheEntry.isExpired at hb
      rw [hexp] at hb
      have hne : (e != 0) = true := by simp; omega
      simp [hne] at hb
      omega
  · intro st now key entry e hget hexp hpos hret
    unfold MemoryStorage.hasKey at hret
    rw [hget] at hret
    by_cases hb : entry.isExpired now
    · simp [hb] at hret
    · unfold MemoryCacheEntry.isExpired at hb
      rw [hexp] at hb
      have hne : (e != 0) = true := by simp; omega
      simp [hne] at hb
      omega
  · intro p now key row e hget hexp hret
    cases hc : p.connected
    · simp [PostgresStorage.get, hc] at hret
    · cases hf : p.failOps
      · simp [PostgresStorage.get, hc, hf, hget, PgRow.live, hexp] at hret
        by_cases hlt : now < e
        · exact hlt
        · simp [hlt] at hret
      · simp [PostgresStorage.get, hc, hf] at hret
  · intro r now key entry e hget hexp hret
    cases hc : r.connected
    · simp [RedisStorage.get, hc] at hret
    · cases hf : r.failOps
      · simp [RedisStorage.get, hc, hf, hget, RedisEntry.live, hexp] at hret
        by_cases hlt : now < e
        · exact hlt
        · simp [hlt] at hret
      · simp [RedisStorage.get, hc, hf] at hret

/-- Witness for C6: a concrete entry expiring at 1000 is still returned
at `now = 500`, within the bound. -/
theorem layer_expiry_bound_witness :
    mapGet c6MemLive.cache ("k") = some { value := Val.num 7, expires := some 1000 } ∧
    (0 : Nat) < 1000 ∧
    (c6MemLive.get 500 ("k")).1.isSome = true ∧
    (500 : Nat) ≤ 1000 :=
  ⟨rfl, by omega, rfl,
   layer_expiry_bound.1 c6MemLive 500 ("k") { value := Val.num 7, expires := some 1000 } 1000
     rfl rfl (by omega) rfl⟩

/-- Claim C7 is the documented contract but the code violates it: the
engine's own increment cascade documents an L1 fallback, yet
`MemoryStorage` implements no `increment`, so in a memory-only
configuration `increment` throws even when the key holds a number. -/
theorem memory_increment_missing :
    c7MemOnlyEngine.increment 0 ("c") 1 none =
      .error ("No storage layer available for increment operation") := rfl

/-- Counterexample to C8 as stated: a `set` targeted at the L2 layer
returns `true` even on an engine with no L2 configured at all. -/
theorem redis_targeted_set_counterexample :
    (c8NoRedisEngine.set 0 ("x") (Val.num 1) { layer := some StorageLayer.redis }).1 = true := rfl

/-- Claim C8 (amended): an L2-targeted `set` on a connected engine always
returns `true` — when the L2 write fails or L2 is absent the failure is
swallowed, not fatal — and it touches no other layer; likewise an L2 write
failure during a default multi-layer `set` does not fail the call and
leaves the L2 state unchanged. -/
theorem redis_set_failure_nonfatal (st : StorageEngine) (now : Nat) (key : String)
    (value : Val) (ttl : Option Nat) (hconn : st.connected = true) :
    ((st.set now key value { ttl := ttl, layer := some StorageLayer.redis }).1 = true ∧
     (st.set now key value { ttl := ttl, layer := some StorageLayer.redis }).2.l1Memory = st.l1Memory ∧
     (st.set now key value { ttl := ttl, layer := some StorageLayer.redis }).2.l3Postgres = st.l3Postgres) ∧
    (∀ p p' r, st.l3Postgres = some p → p.set now key value ttl = .ok p' →
      st.l2Redis = some r → r.failOps = true →
      (st.set now key value { ttl := ttl }).1 = true ∧
      (st.set now key value { ttl := ttl }).2.l2Redis = some r) := by
  constructor
  · cases hr : st.l2Redis <;> simp [StorageEngine.set, hconn, hr]
  · intro p p' r hpg hset hr hfail
    simp [StorageEngine.set, hconn, hpg, hset, hr, redisSet_of_failOps r now key value ttl hfail]

/-- Witness for C8: a concrete engine with failing L2 still reports
`true` for both the targeted and the default write. -/
theorem redis_set_failure_nonfatal_witness :
    c8Engine.connected = true ∧
    (c8Engine.set 0 ("x") (Val.num 1) { ttl := none, layer := some StorageLayer.redis }).1 = true ∧
    (c8Engine.set 0 ("x") (Val.num 1) { ttl := none }).1 = true :=
  have h := redis_set_failure_nonfatal c8Engine 0 ("x") (Val.num 1) none rfl
  ⟨rfl, h.1.1,
   (h.2 { connected := true, store := [] }
        { connected := true, store := [(("x"), { value := Val.num 1 })] }
        { connected := true, store := [], failOps := true } rfl rfl rfl rfl).1⟩

/-- Claim C9: `healthCheck(S)` returns a map whose key list is exactly
`S` in request order, each requested layer mapped to the boolean result of
its ping, an unconfigured layer mapped to `false`; a singleton selector
yields a single-key map and no selector checks all three layers. -/
theorem healthcheck_selector (st : StorageEngine) (S : List StorageLayer) (L : StorageLayer) :
    (st.healthCheck (some (HealthSelector.many S))).1 =
      S.map (fun l => (l, st.pingResult l)) ∧
    ((st.healthCheck (some (HealthSelector.many S))).1.map Prod.fst) = S ∧
    (st.healthCheck (some (HealthSelector.one L))).1 = [(L, st.pingResult L)] ∧
    (st.healthCheck none).1 =
      [StorageLayer.memory, StorageLayer.redis, StorageLayer.postgres].map
        (fun l => (l, st.pingResult l)) ∧
    (st.l2Redis = none → st.pingResult StorageLayer.redis = false) ∧
    (st.l3Postgres = none → st.pingResult StorageLayer.postgres = false) := by
  refine ⟨?_, ?_, ?_, ?_, ?_, ?_⟩
  · exact (healthChecks_spec S st).1
  · show List.map Prod.fst (st.healthChecks S).1 = S
    rw [(healthChecks_spec S st).1, List.map_map]
    have hid : (Prod.fst ∘ fun l : StorageLayer => (l, st.pingResult l)) = id :=
      funext (fun l => rfl)
    rw [hid, List.map_id]
  · exact (healthChecks_spec [L] st).1
  · exact (healthChecks_spec _ st).1
  · intro h; simp [StorageEngine.pingResult, h]
  · intro h; simp [StorageEngine.pingResult, h]

/-- Witness for C9: on a concrete engine with no L2,
`healthCheck([redis, postgres])` is exactly
`{redis ↦ false, postgres ↦ true}` and `healthCheck([memory])` has the
single key `memory`. -/
theorem healthcheck_selector_witness :
    (c9Engine.healthCheck (some (HealthSelector.many
        [StorageLayer.redis, StorageLayer.postgres]))).1 =
      [(StorageLayer.redis, false), (StorageLayer.postgres, true)] ∧
    (c9Engine.healthCheck (some (HealthSelector.one StorageLayer.memory))).1 =
      [(StorageLayer.memory, true)] ∧
    c9Engine.l2Redis = none ∧ c9Engine.pingResult StorageLayer.redis = false :=
  have h := healthcheck_selector c9Engine [StorageLayer.redis, StorageLayer.postgres]
    StorageLayer.memory
  ⟨h.1, h.2.2.1, rfl, h.2.2.2.2.1 rfl⟩

/-- Claim C10: a `set` with TTL 0 stores an entry with no expiration at
every layer — the TTL is tested for JS truthiness, so 0 behaves exactly
like an omitted TTL and a later `get` returns the value at any time. -/
theorem ttl_zero_means_no_expiration :
    (∀ (st : MemoryStorage) (now nowLater : Nat) (key : String) (value : Val),
      mapGet (st.set now key value (some 0)).cache key = some { value := value } ∧
      ((st.set now key value (some 0)).get nowLater key).1 = some value) ∧
    (∀ (r : RedisStorage) (now nowLater : Nat) (key : String) (value : Val),
      r.connected = true → r.failOps = false →
      mapGet (r.set now key value (some 0)).store key = some { value := value } ∧
      (r.set now key value (some 0)).get nowLater key = some value) ∧
    (∀ (p : PostgresStorage) (now nowLater : Nat) (key : String) (value : Val) (p' : PostgresStorage),
      p.set now key value (some 0) = .ok p' →
      mapGet p'.store key = some { value := value } ∧ p'.get nowLater key = some value) := by
  refine ⟨?_, ?_, ?_⟩
  · intro st now nowLater key value
    have hentry : memEntryOf now value (some 0) = { value := value } := rfl
    have hget : mapGet (st.set now key value (some 0)).cache key = some { value := value } := by
      unfold MemoryStorage.set
      rw [hentry]
      exact mapGet_mapSet_self _ _ _
    refine ⟨hget, ?_⟩
    unfold MemoryStorage.get
    rw [hget]
    simp [MemoryCacheEntry.isExpired]
  · intro r now nowLater key value hc hf
    have hstore : (r.set now key value (some 0)).store = mapSet r.store key { value := value } := by
      simp [RedisStorage.set, hc, hf]
    have hcon : (r.set now key value (some 0)).connected = true := by
      simp [RedisStorage.set, hc, hf]
    have hfail : (r.set now key value (some 0)).failOps = false := by
      simp [RedisStorage.set, hc, hf]
    have hget : mapGet (r.set now key value (some 0)).store key = some { value := value } := by
      rw [hstore]; exact mapGet_mapSet_self _ _ _
    refine ⟨hget, ?_⟩
    simp [RedisStorage.get, hcon, hfail, hget, RedisEntry.live]
  · intro p now nowLater key value p' hset
    cases hc : p.connected
    · simp [PostgresStorage.set, hc] at hset
    · cases hf : p.failOps
      · simp [PostgresStorage.set, hc, hf, pgExpiresAt] at hset
        subst hset
        have hget : mapGet (mapSet p.store key { value := value }) key =
            some { value := value } := mapGet_mapSet_self _ _ _
        exact ⟨hget, by simp [PostgresStorage.get, hc, hf, hget, PgRow.live]⟩
      · simp [PostgresStorage.set, hc, hf] at hset

/-- Witness for C10: concrete `ttl = 0` writes at each layer are read
back unexpired arbitrarily far in the future. -/
theorem ttl_zero_means_no_expiration_witness :
    mapGet ((MemoryStorage.empty 10).set 0 ("k") (Val.num 3) (some 0)).cache ("k") =
      some { value := Val.num 3 } ∧
    (((MemoryStorage.empty 10).set 0 ("k") (Val.num 3) (some 0)).get 999999 ("k")).1 =
      some (Val.num 3) ∧
    c10Redis.connected = true ∧ c10Redis.failOps = false ∧
    (c10Redis.set 0 ("k") (Val.num 3) (some 0)).get 999999 ("k") = some (Val.num 3) ∧
    c10Pg.set 0 ("k") (Val.num 3) (some 0) =
      .ok { connected := true, store := [(("k"), { value := Val.num 3 })] } ∧
    (PostgresStorage.get { connected := true, store := [(("k"), { value := Val.num 3 })] }
      999999 ("k")) = some (Val.num 3) :=
  ⟨(ttl_zero_means_no_expiration.1 (MemoryStorage.empty 10) 0 999999 ("k") (Val.num 3)).1,
   (ttl_zero_means_no_expiration.1 (MemoryStorage.empty 10) 0 999999 ("k") (Val.num 3)).2,
   rfl, rfl,
   (ttl_zero_means_no_expiration.2.1 c10Redis 0 999999 ("k") (Val.num 3) rfl rfl).2,
   rfl,
   (ttl_zero_means_no_expiration.2.2 c10Pg 0 999999 ("k") (Val.num 3)
     { connected := true, store := [(("k"), { value := Val.num 3 })] } rfl).2⟩

end Nuvex
